import Mathlib

/-!
Verification development for the terraform-provider-mongodb repository.

The Go source is shallowly embedded: pure helpers become Lean functions,
the administrative client's operations become functions over an explicit
server-state value, and each resource handler's control flow around the
client becomes a function from the relevant inputs to an outcome value.
Machine integers (int32/int64) are modelled as Int (the values involved are
tiny and never overflow); float64 fields (index min/max) are modelled as Rat,
since the source only tests them for equality with zero. Go maps are
modelled as association lists (Go map iteration order is unspecified; the
properties proved do not depend on it).
-/

namespace MongoProvider

/-! ## Typed error vocabulary (internal/mongodb/errors.go) -/

/-- NotFoundError from errors.go: fields name and t (entity-kind label). -/
structure NotFoundError where
  name : String
  t : String
deriving DecidableEq

/-- The three typed failure kinds of the administrative client:
NotFoundError, TooManyError (carrying the entity-kind label t) and
FailedCommandError (carrying the command name). -/
inductive MongoError where
  | notFound (e : NotFoundError)
  | tooMany (t : String)
  | failedCommand (cmd : String)
deriving DecidableEq

/-! ## Domain data model (internal/mongodb) -/

/-- ShortRole from types_role.go: a role name plus the database it lives in. -/
structure ShortRole where
  role : String
  db : String
deriving DecidableEq

/-- Resource from types_role.go: target of a privilege. -/
structure Resource where
  db : String
  collection : String
deriving DecidableEq

/-- Privilege from types_role.go. -/
structure Privilege where
  resource : Resource
  actions : List String
deriving DecidableEq

/-- User from the mongodb package (user types file): username, password,
database, granted roles, optional SCRAM mechanisms. -/
structure User where
  username : String
  password : String
  database : String
  roles : List ShortRole
  mechanisms : List String
deriving DecidableEq

/-- Role from types_role.go. -/
structure Role where
  name : String
  database : String
  privileges : List Privilege
  roles : List ShortRole
deriving DecidableEq

/-! ## Embeddings of the Go standard-library string helpers used by the
source (strings.Split, strings.Contains). Lean's own String.splitOn is not
kernel-reducible, so the same leftmost non-overlapping-match semantics is
implemented over the underlying character lists with a structural fuel
argument (fuel is the string length, which always suffices: every step
consumes at least one character). -/

/-- Whether the first list is a prefix of the second (Boolean). -/
def isPrefixList : List Char → List Char → Bool
  | [], _ => true
  | _ :: _, [] => false
  | a :: as, b :: bs => a = b && isPrefixList as bs

/-- Worker for goSplit: scans s left to right, cutting at each
non-overlapping occurrence of sep, accumulating the current piece in acc
(reversed). -/
def splitOnCharsAux (sep : List Char) : Nat → List Char → List Char → List (List Char)
  | _, [], acc => [acc.reverse]
  | 0, s, acc => [acc.reverse ++ s]
  | fuel + 1, c :: rest, acc =>
    if isPrefixList sep (c :: rest) then
      acc.reverse :: splitOnCharsAux sep fuel (List.drop (sep.length - 1) rest) []
    else
      splitOnCharsAux sep fuel rest (c :: acc)

/-- Go strings.Split for a non-empty separator. -/
def goSplit (s sep : String) : List String :=
  (splitOnCharsAux sep.data s.data.length s.data []).map (fun cs => String.mk cs)

/-- Worker for goContains. -/
def containsCharsAux (sep : List Char) : List Char → Bool
  | [] => isPrefixList sep []
  | c :: rest => isPrefixList sep (c :: rest) || containsCharsAux sep rest

/-- Go strings.Contains. -/
def goContains (s sub : String) : Bool :=
  containsCharsAux sub.data s.data

/-! ## Command-name constants (user client file and role.go) -/

def createUserCmd : String := "createUser"
def getUserCmd : String := "usersInfo"
def updateUserCmr : String := "updateUser"
def deleteUserCmd : String := "dropUser"

def createRoleCmd : String := "createRole"
def getRoleCmd : String := "rolesInfo"
def updateRoleCmd : String := "updateRole"
def deleteRoleCmd : String := "dropRole"

/-! ## UpsertUser command document shape (user client file, lines 41-53).
The command document starts with the command key and the always-present
roles field, then appends pwd only when the password is non-empty and
mechanisms only when the mechanisms list is non-empty. Only the field
names matter for the spec claims, so the embedding lists the keys of the
bson.D document in order. -/

/-- The ordered list of field keys of the bson.D command document built by
Client.UpsertUser for command name cmd. -/
def upsertUserCommandFields (cmd : String) (user : User) : List String :=
  let fields := [cmd, "roles"]
  let fields := if user.password ≠ "" then fields ++ ["pwd"] else fields
  let fields := if user.mechanisms.length > 0 then fields ++ ["mechanisms"] else fields
  fields

/-! ## Configuration validator (internal/provider/validator.go) -/

def externalDatabase : String := "$external"

def defaultDatabase : String := "admin"

/-- The part of UserResourceModel that userPasswordValidator.ValidateResource
inspects. -/
structure UserResourceModel where
  username : String
  password : String
  database : String
deriving DecidableEq

/-- userPasswordValidator.ValidateResource (validator.go lines 28-57):
returns true exactly when the invalid-user-configuration diagnostic is
appended. First branch: non-external database with empty password; second
branch: external database with non-empty password. -/
def userPasswordValidatorFails (user : UserResourceModel) : Bool :=
  if user.database ≠ externalDatabase ∧ user.password = "" then true
  else if user.database = externalDatabase ∧ user.password ≠ "" then true
  else false

/-! ## Import-identifier parsing -/

/-- UserResource.ImportState identifier parsing (user resource file, dot
grammar variant): the id is split on "."; two segments give
(database, username), one segment gives (defaultDatabase, username), any
other shape is a fatal import error. Returns (database, username). -/
def UserImportStateID (id : String) : Except String (String × String) :=
  match goSplit id "." with
  | [database, username] => Except.ok (database, username)
  | [username] => Except.ok (defaultDatabase, username)
  | _ => Except.error "Unexpected Import Identifier"

/-- IndexResource.ImportState identifier parsing (index resource file,
lines 817-834): the id is split on "." and must have exactly three
segments: database, collection, index name. -/
def IndexImportStateID (id : String) : Except String (String × String × String) :=
  match goSplit id "." with
  | [database, collection, indexName] => Except.ok (database, collection, indexName)
  | _ => Except.error "Invalid import ID"

/-! ## Abstract MongoDB server state for the user/role operations.

Modelled from the spec: the MongoDB server itself is not part of this
repository. The spec describes the server as holding users and roles keyed
by (username, database) resp. (name, database); createUser/createRole add
an entity, updateUser/updateRole modify the entity in place, and
usersInfo/rolesInfo return the entities matching the looked-up name in the
target database. The store is a plain list so that duplicate entities are
representable (the no-duplicates conclusion is proved, not assumed), and
every command is modelled as succeeding with ok = 1 (command failure and
transport errors are orthogonal to the idempotence claim). -/

/-- The fields of a user that the server stores and reports back through
usersInfo (the server does not report passwords or mechanisms). -/
structure StoredUser where
  username : String
  database : String
  roles : List ShortRole
deriving DecidableEq

abbrev UserStore := List StoredUser

/-- The stored record created from an upsert payload. -/
def storedOfUser (u : User) : StoredUser :=
  { username := u.username, database := u.database, roles := u.roles }

/-- The server's result set for usersInfo: username on database. -/
def usersMatching (store : UserStore) (username database : String) : List StoredUser :=
  store.filter (fun s => s.username == username && s.database == database)

/-- GetUserOptions from the user client file. -/
structure GetUserOptions where
  username : String
  database : String
deriving DecidableEq

/-- Client.GetUser (user client file, lines 89-125): zero matches give
NotFoundError with both fields left at their zero value (the Go code
returns a bare NotFoundError struct literal), more than one match gives
TooManyError with label user, exactly one match is returned. -/
def GetUser (store : UserStore) (options : GetUserOptions) : Except MongoError StoredUser :=
  match usersMatching store options.username options.database with
  | [] => Except.error (MongoError.notFound { name := "", t := "" })
  | [u] => Except.ok u
  | _ :: _ :: _ => Except.error (MongoError.tooMany "user")

/-- Modelled from the spec: the createUser command adds the user entity to
the server. -/
def runCreateUser (store : UserStore) (u : User) : UserStore :=
  store ++ [storedOfUser u]

/-- Modelled from the spec: the updateUser command modifies every stored
entity with the matching (username, database) key in place. -/
def runUpdateUser (store : UserStore) (u : User) : UserStore :=
  store.map (fun s =>
    if s.username == u.username && s.database == u.database then storedOfUser u else s)

/-- Dispatch of the user command document to the server model. -/
def runUserCommand (store : UserStore) (cmd : String) (u : User) : UserStore :=
  if cmd == createUserCmd then runCreateUser store u
  else if cmd == updateUserCmr then runUpdateUser store u
  else store

/-- Client.UpsertUser (user client file, lines 18-77): look the user up;
a NotFound result selects createUser, a successful lookup selects
updateUser, any other lookup error propagates. The selected command is run
against the server, then the user is re-fetched and the fresh
server-reported state is returned, together with the final server state
and the command that was issued. -/
def UpsertUser (store : UserStore) (user : User) :
    Except MongoError (UserStore × StoredUser × String) :=
  let getUserOptions : GetUserOptions :=
    { username := user.username, database := user.database }
  let cmdE : Except MongoError String :=
    match GetUser store getUserOptions with
    | Except.error (MongoError.notFound _) => Except.ok createUserCmd
    | Except.ok _ => Except.ok updateUserCmr
    | Except.error e => Except.error e
  match cmdE with
  | Except.error e => Except.error e
  | Except.ok cmd =>
    let store2 := runUserCommand store cmd user
    match GetUser store2 getUserOptions with
    | Except.error e => Except.error e
    | Except.ok fresh => Except.ok (store2, fresh, cmd)

/-! ## Role client operations (internal/mongodb/role.go). The server
stores a role exactly as the Role structure (rolesInfo reports name,
database, privileges and inherited roles). -/

abbrev RoleStore := List Role

/-- The server's result set for rolesInfo: name on database. -/
def rolesMatching (store : RoleStore) (name database : String) : List Role :=
  store.filter (fun r => r.name == name && r.database == database)

/-- GetRoleOptions from role.go. -/
structure GetRoleOptions where
  name : String
  database : String
deriving DecidableEq

/-- Client.GetRole (role.go lines 83-120): zero matches give NotFoundError
carrying the looked-up name and the label role, more than one gives
TooManyError with label role, exactly one match is returned. -/
def GetRole (store : RoleStore) (options : GetRoleOptions) : Except MongoError Role :=
  match rolesMatching store options.name options.database with
  | [] => Except.error (MongoError.notFound { name := options.name, t := "role" })
  | [r] => Except.ok r
  | _ :: _ :: _ => Except.error (MongoError.tooMany "role")

/-- Modelled from the spec: the createRole command adds the role entity. -/
def runCreateRole (store : RoleStore) (r : Role) : RoleStore :=
  store ++ [r]

/-- Modelled from the spec: the updateRole command modifies every stored
entity with the matching (name, database) key in place. -/
def runUpdateRole (store : RoleStore) (r : Role) : RoleStore :=
  store.map (fun s =>
    if s.name == r.name && s.database == r.database then r else s)

/-- Dispatch of the role command document to the server model. -/
def runRoleCommand (store : RoleStore) (cmd : String) (r : Role) : RoleStore :=
  if cmd == createRoleCmd then runCreateRole store r
  else if cmd == updateRoleCmd then runUpdateRole store r
  else store

/-- Client.UpsertRole (role.go lines 18-71): mirrors UpsertUser with
GetRole, createRole/updateRole and a re-fetch of the fresh state. -/
def UpsertRole (store : RoleStore) (role : Role) :
    Except MongoError (RoleStore × Role × String) :=
  let getRoleOptions : GetRoleOptions :=
    { name := role.name, database := role.database }
  let cmdE : Except MongoError String :=
    match GetRole store getRoleOptions with
    | Except.error (MongoError.notFound _) => Except.ok createRoleCmd
    | Except.ok _ => Except.ok updateRoleCmd
    | Except.error e => Except.error e
  match cmdE with
  | Except.error e => Except.error e
  | Except.ok cmd =>
    let store2 := runRoleCommand store cmd role
    match GetRole store2 getRoleOptions with
    | Except.error e => Except.error e
    | Except.ok fresh => Except.ok (store2, fresh, cmd)

/-! ## Index data model (internal/mongodb index types and index.go).

Index key values and filter-expression values are dynamically typed in Go
(map[string]interface{}); the values the source actually stores are
strings and numbers (the driver decodes numeric key markers as int32), so
they are embedded as a closed sum. -/

/-- A dynamically-typed bson value as used in index key documents:
either a driver-decoded 32-bit integer or a string. -/
inductive BsonVal where
  | int32 (n : Int)
  | str (s : String)
deriving DecidableEq

/-- IndexKeys (map from field path to key value), as an ordered
association list. -/
abbrev IndexKeys := List (String × BsonVal)

/-- Collation options (subset stored by the source; all fields plain). -/
structure Collation where
  locale : String
  caseLevel : Bool
  caseFirst : String
  strength : Int
  numericOrdering : Bool
  alternate : String
  maxVariable : String
  backwards : Bool
deriving DecidableEq

/-- IndexOptions from the mongodb index types file (plain-value variant):
unique/sparse/hidden booleans, the filter document pfExpression
(PartialFilterExpression in the source), wildcardProjection, optional
collation, expireAfterSeconds/version/sphereVersion/bits int32 fields,
min/max float64 fields (Rat here; the source only compares them with 0),
the nil-able weights map (Option distinguishes the Go nil map from an
empty one, which the source treats differently), and the text-index
string/int fields. -/
structure IndexOptions where
  unique : Bool
  sparse : Bool
  hidden : Bool
  pfExpression : List (String × String)
  wildcardProjection : List (String × Int)
  collation : Option Collation
  expireAfterSeconds : Int
  version : Int
  sphereVersion : Int
  bits : Int
  min : Rat
  max : Rat
  weights : Option (List (String × Int))
  defaultLanguage : String
  languageOverride : String
  textIndexVersion : Int
deriving DecidableEq

/-- An IndexOptions value with every field at its Go zero value. -/
def emptyIndexOptions : IndexOptions :=
  { unique := false, sparse := false, hidden := false, pfExpression := [],
    wildcardProjection := [], collation := none, expireAfterSeconds := 0,
    version := 0, sphereVersion := 0, bits := 0, min := 0, max := 0,
    weights := none, defaultLanguage := "", languageOverride := "",
    textIndexVersion := 0 }

/-- Index from the mongodb index types file; database and collection are
client-side context that the server never reports. -/
structure Index where
  name : String
  database : String
  collection : String
  keys : IndexKeys
  options : IndexOptions
deriving DecidableEq

/-- GetIndexOptions from index.go. -/
structure GetIndexOptions where
  name : String
  database : String
  collection : String
deriving DecidableEq

/-- DefaultIndexVersion from the mongodb index types file. -/
def DefaultIndexVersion : Int := 2

/-- Whether the key document has an entry for the given field path. -/
def keysHasField (keys : IndexKeys) (field : String) : Bool :=
  keys.any (fun kv => kv.1 == field)

/-- Whether any key maps to the given value (used for the 2d / text
detection loops in CreateIndex). -/
def keysHasValue (keys : IndexKeys) (v : BsonVal) : Bool :=
  keys.any (fun kv => kv.2 == v)

/-- The set of option fields Client.CreateIndex (index.go lines 26-115)
actually sets on the server-bound options structure, in source order:
name and version always; unique/sparse/hidden only when true; bits/min/max
only for a 2d index and only when non-zero; weights (when the map is
non-nil), default_language, language_override and textIndexVersion only
for a text index; expireAfterSeconds only when positive and the key set
is not a wildcard index; collation and partialFilterExpression when
non-empty; wildcardProjection only for a wildcard index and when
non-empty. -/
def createIndexOptionNames (index : Index) : List String :=
  let isWildcardIndex := keysHasField index.keys "$**"
  let is2dIndex := keysHasValue index.keys (BsonVal.str "2d")
  let isTextIndex := keysHasValue index.keys (BsonVal.str "text")
  ["name", "v"]
  ++ (if index.options.unique then ["unique"] else [])
  ++ (if index.options.sparse then ["sparse"] else [])
  ++ (if index.options.hidden then ["hidden"] else [])
  ++ (if is2dIndex then
        (if 0 < index.options.bits then ["bits"] else [])
        ++ (if index.options.min ≠ 0 then ["min"] else [])
        ++ (if index.options.max ≠ 0 then ["max"] else [])
      else [])
  ++ (if isTextIndex then
        (if index.options.weights ≠ none then ["weights"] else [])
        ++ (if index.options.defaultLanguage ≠ "" then ["default_language"] else [])
        ++ (if index.options.languageOverride ≠ "" then ["language_override"] else [])
        ++ (if 0 < index.options.textIndexVersion then ["textIndexVersion"] else [])
      else [])
  ++ (if 0 < index.options.expireAfterSeconds ∧ isWildcardIndex = false then
        ["expireAfterSeconds"]
      else [])
  ++ (if index.options.collation ≠ none then ["collation"] else [])
  ++ (if 0 < index.options.pfExpression.length then ["partialFilterExpression"] else [])
  ++ (if isWildcardIndex ∧ 0 < index.options.wildcardProjection.length then
        ["wildcardProjection"]
      else [])

/-- The text-index presentation fixup of GetIndex: when the raw key
document carries the synthetic _fts marker, the returned keys map every
field of the weights option (zero fields for a nil map) to "text". -/
def textKeysFromWeights (weights : Option (List (String × Int))) : IndexKeys :=
  (weights.getD []).map (fun w => (w.1, BsonVal.str "text"))

/-- The two presentation fixups GetIndex (index.go lines 169-180) applies
to a matched index: the _fts/text rewrite, then the rewrite of a $** entry
whose driver-decoded value is the 32-bit integer 1 to the literal
"wildcard". -/
def fixupIndexKeys (index : Index) : IndexKeys :=
  let keys1 :=
    if keysHasField index.keys "_fts" then textKeysFromWeights index.options.weights
    else index.keys
  keys1.map (fun kv =>
    if kv.1 == "$**" && kv.2 == BsonVal.int32 1 then (kv.1, BsonVal.str "wildcard") else kv)

/-- Client.GetIndex (index.go lines 139-190): linear scan of the server's
index listing for the first index with the requested name; the
caller-supplied database and collection are re-attached and the
presentation fixups applied; no match gives NotFoundError carrying the
looked-up name and the label index. -/
def GetIndex (indexes : List Index) (options : GetIndexOptions) :
    Except MongoError Index :=
  match indexes.find? (fun i => i.name == options.name) with
  | some idx =>
    Except.ok { idx with
      database := options.database,
      collection := options.collection,
      keys := fixupIndexKeys idx }
  | none => Except.error (MongoError.notFound { name := options.name, t := "index" })

/-- IndexKeys.ToStringMap (mongodb index types file): every key value is
rendered to a string, strings verbatim and other values through Go %v
formatting (decimal for integers). -/
def ToStringMap (keys : IndexKeys) : List (String × String) :=
  keys.map (fun kv =>
    (kv.1, match kv.2 with
           | BsonVal.str s => s
           | BsonVal.int32 n => toString n))

/-- ConvertMap (mongodb index types file, lines 171-190): converts a
string-valued plan map to the dynamic map, turning "1"/"-1" into numbers
when converting index keys and passing everything else through. -/
def ConvertMap (m : List (String × String)) (indexKeys : Bool) :
    List (String × BsonVal) :=
  m.map (fun kv =>
    (kv.1,
      if indexKeys then
        match kv.2 with
        | "1" => BsonVal.int32 1
        | "-1" => BsonVal.int32 (-1)
        | s => BsonVal.str s
      else BsonVal.str kv.2))

/-- The key normalization IndexResource.Create (index resource file, lines
490-509) applies to one plan entry: the wildcard token under the $** field
path becomes the numeric marker 1; otherwise "1"/"asc" becomes 1,
"-1"/"desc" becomes -1, and every other token (2d, 2dsphere, text, hashed
and unknown strings alike) passes through verbatim. -/
def indexKeyValueOfTypeStr (field typeStr : String) : BsonVal :=
  if field == "$**" && typeStr == "wildcard" then BsonVal.int32 1
  else
    match typeStr with
    | "1" => BsonVal.int32 1
    | "asc" => BsonVal.int32 1
    | "-1" => BsonVal.int32 (-1)
    | "desc" => BsonVal.int32 (-1)
    | s => BsonVal.str s

/-- The full plan-keys-to-index-keys conversion of IndexResource.Create. -/
def planKeysToIndexKeys (keysMap : List (String × String)) : IndexKeys :=
  keysMap.map (fun kv => (kv.1, indexKeyValueOfTypeStr kv.1 kv.2))

/-! ## IndexResource.ValidateConfig (index resource file, lines 315-396). -/

/-- The part of IndexResourceModel that ValidateConfig inspects: the keys
map, the TTL field and the filter-expression map, each nullable. -/
structure IndexConfigModel where
  keys : Option (List (String × String))
  expireAfterSeconds : Option Int
  pfExpression : Option (List (String × String))
deriving DecidableEq

/-- The two diagnostics ValidateConfig can raise. -/
inductive IndexConfigDiag where
  | ttlWildcard
  | invalidFilterOp (op : String)
deriving DecidableEq

/-- The fixed operator allow-list of ValidateConfig. -/
def validOperators : List String :=
  ["$eq", "$exists", "$gt", "$gte", "$lt", "$lte", "$type", "$and", "$or", "$in"]

/-- The per-key check of the ValidateConfig filter-expression loop: keys
without a ".$" are skipped; otherwise the key is split on ".$" and the
operator is "$" prepended to the second piece; an operator outside the
allow-list is reported. -/
def filterKeyOffense (k : String) : Option String :=
  if !(goContains k ".$") then none
  else if (goSplit k ".$").length ≤ 1 then none
  else if validOperators.contains ("$" ++ (goSplit k ".$").getD 1 "") then none
  else some ("$" ++ (goSplit k ".$").getD 1 "")

/-- IndexResource.ValidateConfig: nothing is checked while the keys map is
null/unknown; with a known keys map, a set TTL together with a $** key is
the TTL/wildcard diagnostic; otherwise the filter-expression keys are
scanned in order and the first disallowed operator is reported. -/
def ValidateConfig (config : IndexConfigModel) : Option IndexConfigDiag :=
  match config.keys with
  | none => none
  | some keysMap =>
    if config.expireAfterSeconds.isSome && keysMap.any (fun kv => kv.1 == "$**") then
      some IndexConfigDiag.ttlWildcard
    else
      match config.pfExpression with
      | none => none
      | some filterExpr =>
        (filterExpr.findSome? (fun kv => filterKeyOffense kv.1)).map
          IndexConfigDiag.invalidFilterOp

/-! ## Resource Read outcomes.

Each Read handler fetches the entity and then either overwrites the
tracked state from the result, removes the resource from tracked state, or
appends an error diagnostic and leaves the tracked state unchanged. The
embedding maps the lookup result to that outcome. -/

/-- Outcome of a resource Read handler. -/
inductive ReadOutcome (α : Type) where
  | newState (value : α)
  | removed
  | errorDiag (summary : String) (err : MongoError)
deriving DecidableEq

/-- RoleResource.Read (role resource file, lines 169-218): every lookup
error, of any kind, is turned into the failed-to-get-role diagnostic and
the handler returns with the tracked state unchanged; a successful lookup
overwrites state from the returned role. -/
def RoleResourceRead (lookup : Except MongoError Role) : ReadOutcome Role :=
  match lookup with
  | Except.error e => ReadOutcome.errorDiag "failed to get role" e
  | Except.ok role => ReadOutcome.newState role

/-- UserResource.Read (user resource file): every lookup error is turned
into the failed-to-get-user diagnostic; a successful lookup overwrites
state. -/
def UserResourceRead (lookup : Except MongoError StoredUser) : ReadOutcome StoredUser :=
  match lookup with
  | Except.error e => ReadOutcome.errorDiag "failed to get user" e
  | Except.ok user => ReadOutcome.newState user

/-- IndexResource.Read (index resource file, lines 777-815): a NotFound
lookup error removes the resource from tracked state; any other error is
the reading-index diagnostic; success overwrites state. -/
def IndexResourceRead (lookup : Except MongoError Index) : ReadOutcome Index :=
  match lookup with
  | Except.error (MongoError.notFound _) => ReadOutcome.removed
  | Except.error e => ReadOutcome.errorDiag "Error reading MongoDB index" e
  | Except.ok index => ReadOutcome.newState index

/-! ## Nil-client guards.

Each lifecycle handler of the user, role and index resources begins (or
does not) with checkClient, which, when the shared client handle is nil,
appends the diagnostic "MongoDB client is not configured" and returns
before any client use. The embedding reduces each handler to its entry
behaviour: given whether the client is configured, either the
not-configured diagnostic is raised and the handler returns, or the
handler proceeds to its first administrative-client call, or the handler
never touches the client at all. -/

/-- Entry behaviour of a lifecycle handler with respect to the client. -/
inductive HandlerEntry where
  | notConfiguredDiag
  | clientCall (operation : String)
  | noClientCall
deriving DecidableEq

/-- Shared shape of every handler that does start with checkClient. -/
def guardedEntry (clientConfigured : Bool) (operation : String) : HandlerEntry :=
  if clientConfigured then HandlerEntry.clientCall operation
  else HandlerEntry.notConfiguredDiag

/-- UserResource.Create: checkClient, then UpsertUser. -/
def UserResourceCreateEntry (clientConfigured : Bool) : HandlerEntry :=
  guardedEntry clientConfigured "UpsertUser"

/-- UserResource.Read: checkClient, then GetUser. -/
def UserResourceReadEntry (clientConfigured : Bool) : HandlerEntry :=
  guardedEntry clientConfigured "GetUser"

/-- UserResource.Update: checkClient, then UpsertUser. -/
def UserResourceUpdateEntry (clientConfigured : Bool) : HandlerEntry :=
  guardedEntry clientConfigured "UpsertUser"

/-- UserResource.Delete: checkClient, then DeleteUser. -/
def UserResourceDeleteEntry (clientConfigured : Bool) : HandlerEntry :=
  guardedEntry clientConfigured "DeleteUser"

/-- UserResource.ImportState: checkClient, then GetUser. -/
def UserResourceImportStateEntry (clientConfigured : Bool) : HandlerEntry :=
  guardedEntry clientConfigured "GetUser"

/-- RoleResource.Create: checkClient, then UpsertRole. -/
def RoleResourceCreateEntry (clientConfigured : Bool) : HandlerEntry :=
  guardedEntry clientConfigured "UpsertRole"

/-- RoleResource.Read: checkClient, then GetRole. -/
def RoleResourceReadEntry (clientConfigured : Bool) : HandlerEntry :=
  guardedEntry clientConfigured "GetRole"

/-- RoleResource.Update: checkClient, then UpsertRole. -/
def RoleResourceUpdateEntry (clientConfigured : Bool) : HandlerEntry :=
  guardedEntry clientConfigured "UpsertRole"

/-- RoleResource.Delete: checkClient, then DeleteRole. -/
def RoleResourceDeleteEntry (clientConfigured : Bool) : HandlerEntry :=
  guardedEntry clientConfigured "DeleteRole"

/-- RoleResource.ImportState: checkClient, then GetRole. -/
def RoleResourceImportStateEntry (clientConfigured : Bool) : HandlerEntry :=
  guardedEntry clientConfigured "GetRole"

/-- IndexResource.Create: checkClient, then CreateIndex. -/
def IndexResourceCreateEntry (clientConfigured : Bool) : HandlerEntry :=
  guardedEntry clientConfigured "CreateIndex"

/-- IndexResource.Read: checkClient, then GetIndex. -/
def IndexResourceReadEntry (clientConfigured : Bool) : HandlerEntry :=
  guardedEntry clientConfigured "GetIndex"

/-- IndexResource.Update: indexes are immutable, the handler re-persists
the plan as state and never touches the client. -/
def IndexResourceUpdateEntry (_clientConfigured : Bool) : HandlerEntry :=
  HandlerEntry.noClientCall

/-- IndexResource.Delete: checkClient, then DeleteIndex. -/
def IndexResourceDeleteEntry (clientConfigured : Bool) : HandlerEntry :=
  guardedEntry clientConfigured "DeleteIndex"

/-- IndexResource.ImportState (index resource file, lines 817-858): the
handler has no checkClient guard at all; after parsing the identifier it
calls GetIndex on the client unconditionally. -/
def IndexResourceImportStateEntry (_clientConfigured : Bool) : HandlerEntry :=
  HandlerEntry.clientCall "GetIndex"

/-! ## Theorems for the spec claims -/

/-- Claim C1, counterexample: with the role Read handler, a NotFound
lookup error is surfaced as the failed-to-get-role diagnostic and the
resource is NOT removed from tracked state, contradicting the claim at
this concrete input. -/
theorem role_read_notfound_not_removed :
    RoleResourceRead (Except.error (MongoError.notFound { name := "myRole", t := "role" })) =
      ReadOutcome.errorDiag "failed to get role"
        (MongoError.notFound { name := "myRole", t := "role" }) ∧
    RoleResourceRead (Except.error (MongoError.notFound { name := "myRole", t := "role" })) ≠
      ReadOutcome.removed := by
  exact ⟨rfl, by decide⟩

/-- Claim C1, amended: the role resource Read surfaces every lookup error,
NotFound included, as a diagnostic and leaves tracked state unchanged; it
is the index resource Read that removes the resource on NotFound and
surfaces every other error as a diagnostic. -/
theorem read_notfound_handling :
    (∀ e : MongoError, RoleResourceRead (Except.error e) =
        ReadOutcome.errorDiag "failed to get role" e) ∧
    (∀ r : Role, RoleResourceRead (Except.ok r) = ReadOutcome.newState r) ∧
    (∀ nf : NotFoundError, IndexResourceRead (Except.error (MongoError.notFound nf)) =
        ReadOutcome.removed) ∧
    (∀ t : String, IndexResourceRead (Except.error (MongoError.tooMany t)) =
        ReadOutcome.errorDiag "Error reading MongoDB index" (MongoError.tooMany t)) ∧
    (∀ c : String, IndexResourceRead (Except.error (MongoError.failedCommand c)) =
        ReadOutcome.errorDiag "Error reading MongoDB index" (MongoError.failedCommand c)) :=
  ⟨fun _ => rfl, fun _ => rfl, fun _ => rfl, fun _ => rfl, fun _ => rfl⟩

/-- Claim C3: the UpsertUser command document always contains roles,
contains pwd exactly when the password is non-empty, and contains
mechanisms exactly when the mechanisms list is non-empty. -/
theorem upsert_user_command_shape (cmd : String) (user : User)
    (hcmd : cmd = createUserCmd ∨ cmd = updateUserCmr) :
    "roles" ∈ upsertUserCommandFields cmd user ∧
    ("pwd" ∈ upsertUserCommandFields cmd user ↔ user.password ≠ "") ∧
    ("mechanisms" ∈ upsertUserCommandFields cmd user ↔ user.mechanisms ≠ []) := by
  rcases hcmd with h | h <;> subst h <;>
    unfold upsertUserCommandFields <;>
    by_cases hp : user.password = "" <;>
    by_cases hm : user.mechanisms = [] <;>
    simp [hp, hm, createUserCmd, updateUserCmr, List.length_pos]

/-- Sample user used to witness claims with hypotheses. -/
def witnessUser : User :=
  { username := "alice", password := "secret", database := "admin",
    roles := [{ role := "readWrite", db := "appdb" }],
    mechanisms := ["SCRAM-SHA-256"] }

/-- Claim C3, witness at the createUser command and a concrete user. -/
theorem upsert_user_command_shape_witness :
    "roles" ∈ upsertUserCommandFields createUserCmd witnessUser ∧
    ("pwd" ∈ upsertUserCommandFields createUserCmd witnessUser ↔
      witnessUser.password ≠ "") ∧
    ("mechanisms" ∈ upsertUserCommandFields createUserCmd witnessUser ↔
      witnessUser.mechanisms ≠ []) :=
  upsert_user_command_shape createUserCmd witnessUser (Or.inl rfl)

/-- The plan keys of the round-trip scenario of claim C4. -/
def roundTripPlanKeys : List (String × String) :=
  [("email", "1"), ("$**", "wildcard")]

/-- The server-side index produced by creating with the round-trip plan
keys: the server stores the normalized key document (the driver decodes
the numeric markers as 32-bit integers) and reports empty database and
collection fields. -/
def roundTripServerIndex : Index :=
  { name := "idx1", database := "", collection := "",
    keys := planKeysToIndexKeys roundTripPlanKeys, options := emptyIndexOptions }

/-- Claim C4: the create path normalizes the plan keys map with
email mapped to "1" and the wildcard field path to the numeric markers 1
and 1, and reading the stored index back through GetIndex and rendering
the keys for presentation yields "1" for email and "wildcard" for the
wildcard field path. -/
theorem index_keys_roundtrip :
    planKeysToIndexKeys roundTripPlanKeys =
      [("email", BsonVal.int32 1), ("$**", BsonVal.int32 1)] ∧
    (GetIndex [roundTripServerIndex]
        { name := "idx1", database := "db", collection := "people" }).map
        (fun i => ToStringMap i.keys) =
      Except.ok [("email", "1"), ("$**", "wildcard")] := by
  exact ⟨rfl, rfl⟩

/-- Claim C7: the user configuration validator raises the invalid-user
diagnostic exactly when the database is not external with an empty
password, or the database is external with a non-empty password. -/
theorem user_password_rule (user : UserResourceModel) :
    userPasswordValidatorFails user = true ↔
      ((user.database ≠ externalDatabase ∧ user.password = "") ∨
       (user.database = externalDatabase ∧ user.password ≠ "")) := by
  unfold userPasswordValidatorFails
  split_ifs with h1 h2 <;> simp_all

/-- Claim C8: user import accepts db.username and bare username (database
defaulting to admin) and rejects every other shape, in particular the
three-segment a.b.c; index import accepts exactly three segments, so it
accepts a.b.c as database a, collection b, index name c. -/
theorem import_identifier_parsing :
    UserImportStateID "admin.alice" = Except.ok ("admin", "alice") ∧
    UserImportStateID "alice" = Except.ok ("admin", "alice") ∧
    UserImportStateID "a.b.c" = Except.error "Unexpected Import Identifier" ∧
    IndexImportStateID "a.b.c" = Except.ok ("a", "b", "c") ∧
    (∀ id : String, (UserImportStateID id).isOk = true ↔
      ((goSplit id ".").length = 1 ∨ (goSplit id ".").length = 2)) ∧
    (∀ id : String, (IndexImportStateID id).isOk = true ↔
      (goSplit id ".").length = 3) := by
  refine ⟨by rfl, by rfl, by rfl, by rfl, ?_, ?_⟩
  · intro id
    unfold UserImportStateID
    rcases goSplit id "." with _ | ⟨a, _ | ⟨b, _ | ⟨c, t⟩⟩⟩ <;>
      simp [Except.isOk, Except.toBool]
  · intro id
    unfold IndexImportStateID
    rcases goSplit id "." with _ | ⟨a, _ | ⟨b, _ | ⟨c, _ | ⟨d, t⟩⟩⟩⟩ <;>
      simp [Except.isOk, Except.toBool]

/-- Claim C10, counterexample: the index resource ImportState handler,
with the client not configured, proceeds straight to its GetIndex client
call instead of raising the not-configured diagnostic. -/
theorem index_import_no_guard :
    IndexResourceImportStateEntry false = HandlerEntry.clientCall "GetIndex" ∧
    IndexResourceImportStateEntry false ≠ HandlerEntry.notConfiguredDiag := by
  decide

/-- Claim C10, amended: every lifecycle handler that invokes a client
operation starts with the nil-client guard, EXCEPT the index resource
ImportState, which calls GetIndex without any guard (the index resource
Update never touches the client at all). -/
theorem client_guard_coverage :
    UserResourceCreateEntry false = HandlerEntry.notConfiguredDiag ∧
    UserResourceReadEntry false = HandlerEntry.notConfiguredDiag ∧
    UserResourceUpdateEntry false = HandlerEntry.notConfiguredDiag ∧
    UserResourceDeleteEntry false = HandlerEntry.notConfiguredDiag ∧
    UserResourceImportStateEntry false = HandlerEntry.notConfiguredDiag ∧
    RoleResourceCreateEntry false = HandlerEntry.notConfiguredDiag ∧
    RoleResourceReadEntry false = HandlerEntry.notConfiguredDiag ∧
    RoleResourceUpdateEntry false = HandlerEntry.notConfiguredDiag ∧
    RoleResourceDeleteEntry false = HandlerEntry.notConfiguredDiag ∧
    RoleResourceImportStateEntry false = HandlerEntry.notConfiguredDiag ∧
    IndexResourceCreateEntry false = HandlerEntry.notConfiguredDiag ∧
    IndexResourceReadEntry false = HandlerEntry.notConfiguredDiag ∧
    IndexResourceDeleteEntry false = HandlerEntry.notConfiguredDiag ∧
    IndexResourceUpdateEntry false = HandlerEntry.noClientCall ∧
    IndexResourceImportStateEntry false = HandlerEntry.clientCall "GetIndex" := by
  decide

/-! ## Supporting lemmas about the server store -/

lemma usersMatching_append (a b : UserStore) (username database : String) :
    usersMatching (a ++ b) username database =
      usersMatching a username database ++ usersMatching b username database :=
  List.filter_append a b

lemma usersMatching_storedOf (u : User) :
    usersMatching [storedOfUser u] u.username u.database = [storedOfUser u] := by
  simp [usersMatching, storedOfUser]

lemma usersMatching_runUpdateUser (l : UserStore) (u : User) :
    usersMatching (runUpdateUser l u) u.username u.database =
      (usersMatching l u.username u.database).map (fun _ => storedOfUser u) := by
  induction l with
  | nil => rfl
  | cons s t ih =>
    simp only [runUpdateUser, usersMatching, List.map_cons, List.filter_cons] at ih ⊢
    by_cases h : (s.username == u.username && s.database == u.database) = true
    · rw [if_pos h,
        if_pos (show ((storedOfUser u).username == u.username &&
          (storedOfUser u).database == u.database) = true by simp [storedOfUser]),
        if_pos h, List.map_cons, ih]
    · rw [if_neg h, if_neg h, if_neg h, ih]

lemma rolesMatching_append (a b : RoleStore) (name database : String) :
    rolesMatching (a ++ b) name database =
      rolesMatching a name database ++ rolesMatching b name database :=
  List.filter_append a b

lemma rolesMatching_self (r : Role) :
    rolesMatching [r] r.name r.database = [r] := by
  simp [rolesMatching]

lemma rolesMatching_runUpdateRole (l : RoleStore) (r : Role) :
    rolesMatching (runUpdateRole l r) r.name r.database =
      (rolesMatching l r.name r.database).map (fun _ => r) := by
  induction l with
  | nil => rfl
  | cons s t ih =>
    simp only [runUpdateRole, rolesMatching, List.map_cons, List.filter_cons] at ih ⊢
    by_cases h : (s.name == r.name && s.database == r.database) = true
    · rw [if_pos h,
        if_pos (show (r.name == r.name && r.database == r.database) = true by simp),
        if_pos h, List.map_cons, ih]
    · rw [if_neg h, if_neg h, if_neg h, ih]

/-- Claim C2: starting from a server state with no entity at the lookup
key, upserting the same user (resp. role) twice first issues createUser
(resp. createRole) and then updateUser (resp. updateRole), both calls
return the same server-reported state, and after each call the lookup key
maps to exactly one entity. -/
theorem upsert_idempotence (ustore : UserStore) (u : User)
    (rstore : RoleStore) (r : Role)
    (hu : usersMatching ustore u.username u.database = [])
    (hr : rolesMatching rstore r.name r.database = []) :
    UpsertUser ustore u =
      Except.ok (ustore ++ [storedOfUser u], storedOfUser u, createUserCmd) ∧
    UpsertUser (ustore ++ [storedOfUser u]) u =
      Except.ok (runUpdateUser (ustore ++ [storedOfUser u]) u,
        storedOfUser u, updateUserCmr) ∧
    usersMatching (ustore ++ [storedOfUser u]) u.username u.database =
      [storedOfUser u] ∧
    usersMatching (runUpdateUser (ustore ++ [storedOfUser u]) u)
        u.username u.database = [storedOfUser u] ∧
    UpsertRole rstore r = Except.ok (rstore ++ [r], r, createRoleCmd) ∧
    UpsertRole (rstore ++ [r]) r =
      Except.ok (runUpdateRole (rstore ++ [r]) r, r, updateRoleCmd) ∧
    rolesMatching (rstore ++ [r]) r.name r.database = [r] ∧
    rolesMatching (runUpdateRole (rstore ++ [r]) r) r.name r.database = [r] := by
  have hs1 : usersMatching (ustore ++ [storedOfUser u]) u.username u.database =
      [storedOfUser u] := by
    rw [usersMatching_append, hu, usersMatching_storedOf]
    rfl
  have hs2 : usersMatching (runUpdateUser (ustore ++ [storedOfUser u]) u)
      u.username u.database = [storedOfUser u] := by
    rw [usersMatching_runUpdateUser, hs1]
    rfl
  have hr1 : rolesMatching (rstore ++ [r]) r.name r.database = [r] := by
    rw [rolesMatching_append, hr, rolesMatching_self]
    rfl
  have hr2 : rolesMatching (runUpdateRole (rstore ++ [r]) r) r.name r.database =
      [r] := by
    rw [rolesMatching_runUpdateRole, hr1]
    rfl
  have hbeq1 : (updateUserCmr == createUserCmd) = false := by decide
  have hbeq2 : (updateRoleCmd == createRoleCmd) = false := by decide
  refine ⟨?_, ?_, hs1, hs2, ?_, ?_, hr1, hr2⟩
  · simp [UpsertUser, GetUser, hu, runUserCommand, runCreateUser, hs1]
  · simp [UpsertUser, GetUser, hs1, runUserCommand, hbeq1, hs2]
  · simp [UpsertRole, GetRole, hr, runRoleCommand, runCreateRole, hr1]
  · simp [UpsertRole, GetRole, hr1, runRoleCommand, hbeq2, hr2]

/-- Sample role used to witness claims with hypotheses. -/
def witnessRole : Role :=
  { name := "teamRole", database := "admin",
    privileges := [{ resource := { db := "appdb", collection := "" },
                     actions := ["find", "insert"] }],
    roles := [{ role := "readWrite", db := "appdb" }] }

/-- Claim C2, witness: both upserts evaluated from the empty server
state at concrete inputs. -/
theorem upsert_idempotence_witness :
    UpsertUser [] witnessUser =
      Except.ok ([storedOfUser witnessUser], storedOfUser witnessUser, createUserCmd) ∧
    UpsertRole [] witnessRole =
      Except.ok ([witnessRole], witnessRole, createRoleCmd) := by
  have h := upsert_idempotence [] witnessUser [] witnessRole rfl rfl
  exact ⟨by simpa using h.1, by simpa using h.2.2.2.2.1⟩

/-- Claim C9, counterexample: GetUser with zero matches raises a
NotFoundError whose name and entity-kind label are both left empty, so
the user lookup does NOT carry the looked-up name "alice" or a user
label. -/
theorem getuser_notfound_empty_fields :
    GetUser [] { username := "alice", database := "admin" } =
      Except.error (MongoError.notFound { name := "", t := "" }) ∧
    ({ name := "", t := "" } : NotFoundError) ≠ { name := "alice", t := "user" } := by
  exact ⟨rfl, by decide⟩

/-- Claim C9, amended: the NotFound errors of GetRole and GetIndex carry
the looked-up name and the labels role resp. index, but the NotFound
error of GetUser carries an empty name and an empty label. -/
theorem notfound_error_contents :
    (∀ (store : UserStore) (options : GetUserOptions),
      usersMatching store options.username options.database = [] →
      GetUser store options =
        Except.error (MongoError.notFound { name := "", t := "" })) ∧
    (∀ (store : RoleStore) (options : GetRoleOptions),
      rolesMatching store options.name options.database = [] →
      GetRole store options =
        Except.error (MongoError.notFound { name := options.name, t := "role" })) ∧
    (∀ (indexes : List Index) (options : GetIndexOptions),
      indexes.find? (fun i => i.name == options.name) = none →
      GetIndex indexes options =
        Except.error (MongoError.notFound { name := options.name, t := "index" })) := by
  refine ⟨?_, ?_, ?_⟩
  · intro store options h
    simp [GetUser, h]
  · intro store options h
    simp [GetRole, h]
  · intro indexes options h
    simp [GetIndex, h]

/-- Claim C9, witness: the role and index lookups evaluated at empty
server listings with the concrete names from the spec. -/
theorem notfound_error_contents_witness :
    GetRole [] { name := "does-not-exist", database := "admin" } =
      Except.error (MongoError.notFound { name := "does-not-exist", t := "role" }) ∧
    GetIndex [] { name := "no_such_idx", database := "db", collection := "c" } =
      Except.error (MongoError.notFound { name := "no_such_idx", t := "index" }) :=
  ⟨notfound_error_contents.2.1 [] _ rfl, notfound_error_contents.2.2 [] _ rfl⟩

/-! ## Lemmas about the string splitter, needed to relate the
contains-check and the split of the filter-key scan -/

lemma splitOnCharsAux_length_pos (sep : List Char) :
    ∀ (fuel : Nat) (s acc : List Char), 0 < (splitOnCharsAux sep fuel s acc).length := by
  intro fuel
  induction fuel with
  | zero =>
    intro s acc
    cases s <;> simp [splitOnCharsAux]
  | succ f ih =>
    intro s acc
    cases s with
    | nil => simp [splitOnCharsAux]
    | cons c rest =>
      simp only [splitOnCharsAux]
      split
      · simp
      · exact ih rest (c :: acc)

lemma containsCharsAux_split_length (sep : List Char) (hsep : sep ≠ []) :
    ∀ (fuel : Nat) (s acc : List Char), s.length ≤ fuel →
      containsCharsAux sep s = true →
      1 < (splitOnCharsAux sep fuel s acc).length := by
  intro fuel
  induction fuel with
  | zero =>
    intro s acc hle hc
    cases s with
    | nil =>
      cases sep with
      | nil => exact absurd rfl hsep
      | cons a as => simp [containsCharsAux, isPrefixList] at hc
    | cons c rest => simp at hle
  | succ f ih =>
    intro s acc hle hc
    cases s with
    | nil =>
      cases sep with
      | nil => exact absurd rfl hsep
      | cons a as => simp [containsCharsAux, isPrefixList] at hc
    | cons c rest =>
      simp only [splitOnCharsAux]
      by_cases hp : isPrefixList sep (c :: rest) = true
      · rw [if_pos hp]
        have hpos := splitOnCharsAux_length_pos sep f (List.drop (sep.length - 1) rest) []
        simp only [List.length_cons]
        omega
      · rw [if_neg hp]
        have hrest : containsCharsAux sep rest = true := by
          have hor := hc
          simp only [containsCharsAux, Bool.or_eq_true] at hor
          rcases hor with h | h
          · exact absurd h hp
          · exact h
        exact ih rest (c :: acc) (by simpa using Nat.le_of_succ_le_succ hle) hrest

lemma goContains_goSplit_length (k sub : String) (hsub : sub.data ≠ []) :
    goContains k sub = true → 1 < (goSplit k sub).length := by
  intro h
  unfold goSplit
  rw [List.length_map]
  exact containsCharsAux_split_length sub.data hsub k.data.length k.data [] (le_refl _) h

/-- Characterization of the per-key filter check: it reports an operator
exactly when the key contains ".$" and the extracted operator is outside
the allow-list. -/
lemma filterKeyOffense_isSome (k : String) :
    (filterKeyOffense k).isSome = true ↔
      (goContains k ".$" = true ∧
       validOperators.contains ("$" ++ (goSplit k ".$").getD 1 "") = false) := by
  unfold filterKeyOffense
  by_cases hc : goContains k ".$" = true
  · have hlen : 1 < (goSplit k ".$").length :=
      goContains_goSplit_length k ".$" (by decide) hc
    rw [if_neg (by simp [hc]), if_neg (by omega)]
    by_cases hv : validOperators.contains ("$" ++ (goSplit k ".$").getD 1 "") = true
    · rw [if_pos hv]
      constructor
      · intro h
        exact absurd h (by simp)
      · rintro ⟨-, h2⟩
        rw [hv] at h2
        exact absurd h2 (by decide)
    · rw [if_neg hv]
      constructor
      · intro _
        exact ⟨hc, by simpa using hv⟩
      · intro _
        rfl
  · have hcf : goContains k ".$" = false := by simpa using hc
    rw [if_pos (by simp [hcf])]
    constructor
    · intro h
      exact absurd h (by simp)
    · rintro ⟨h1, -⟩
      exact absurd h1 hc

/-! ## Claims C5 and C6 -/

/-- Membership in a conditional singleton block of the options document. -/
lemma mem_ite_nil {α : Type} (c : Prop) [Decidable c] (l : List α) (a : α) :
    (a ∈ if c then l else []) ↔ c ∧ a ∈ l := by
  split_ifs with h <;> simp [h]

/-- Claim C5: a configuration with expire_after_seconds set and a $** key
fails ValidateConfig (a pure pre-apply check, no server involved) with the
TTL/wildcard diagnostic; and CreateIndex puts expireAfterSeconds into the
server-bound options exactly when it is positive and the key set has no
$** entry. -/
theorem ttl_wildcard_exclusion :
    (∀ (keysMap : List (String × String)) (ttl : Int)
        (pfe : Option (List (String × String))),
      keysMap.any (fun kv => kv.1 == "$**") = true →
      ValidateConfig
          { keys := some keysMap, expireAfterSeconds := some ttl, pfExpression := pfe }
        = some IndexConfigDiag.ttlWildcard) ∧
    (∀ index : Index, "expireAfterSeconds" ∈ createIndexOptionNames index ↔
      (0 < index.options.expireAfterSeconds ∧
       keysHasField index.keys "$**" = false)) := by
  constructor
  · intro keysMap ttl pfe h
    simp [ValidateConfig, h]
  · intro index
    unfold createIndexOptionNames
    simp [mem_ite_nil]

/-- Claim C5, witness: the concrete spec scenario, TTL 3600 with a
wildcard key map, is rejected; and a concrete TTL index with no wildcard
key carries the option. -/
theorem ttl_wildcard_exclusion_witness :
    ValidateConfig
        { keys := some [("$**", "wildcard")],
          expireAfterSeconds := some 3600,
          pfExpression := none }
      = some IndexConfigDiag.ttlWildcard :=
  ttl_wildcard_exclusion.1 [("$**", "wildcard")] 3600 none (by decide)

/-- Claim C6: the filter-expression scan of ValidateConfig rejects (with
the offending operator) exactly when some key contains ".$" with an
extracted operator outside the allow-list; age.$between is rejected naming
$between, age.$gte passes, and a key without ".$" is never rejected. -/
theorem filter_operator_allowlist :
    (∀ filterExpr : List (String × String),
      (ValidateConfig
          { keys := some [], expireAfterSeconds := none, pfExpression := some filterExpr }
        ).isSome = true ↔
        ∃ kv ∈ filterExpr, goContains kv.1 ".$" = true ∧
          validOperators.contains ("$" ++ (goSplit kv.1 ".$").getD 1 "") = false) ∧
    filterKeyOffense "age.$between" = some "$between" ∧
    filterKeyOffense "age.$gte" = none ∧
    (∀ k : String, goContains k ".$" = false → filterKeyOffense k = none) ∧
    (∀ (k op : String), filterKeyOffense k = some op →
      op = "$" ++ (goSplit k ".$").getD 1 "") := by
  refine ⟨?_, by rfl, by rfl, ?_, ?_⟩
  · intro filterExpr
    have hmap : ∀ o : Option String,
        (o.map IndexConfigDiag.invalidFilterOp).isSome = o.isSome := by
      intro o
      cases o <;> rfl
    have hval : ValidateConfig
        { keys := some [], expireAfterSeconds := none, pfExpression := some filterExpr }
        = (filterExpr.findSome? (fun kv => filterKeyOffense kv.1)).map
          IndexConfigDiag.invalidFilterOp := rfl
    rw [hval, hmap]
    constructor
    · intro h
      rcases Option.isSome_iff_exists.mp h with ⟨op, hop⟩
      rcases List.exists_of_findSome?_eq_some hop with ⟨kv, hmem, hkv⟩
      exact ⟨kv, hmem, (filterKeyOffense_isSome kv.1).mp (by simp [hkv])⟩
    · rintro ⟨kv, hmem, hcond⟩
      cases hfs : filterExpr.findSome? (fun kv => filterKeyOffense kv.1) with
      | some op => simp
      | none =>
        have hnone := List.findSome?_eq_none_iff.mp hfs kv hmem
        have hsome := (filterKeyOffense_isSome kv.1).mpr hcond
        rw [hnone] at hsome
        simp at hsome
  · intro k h
    unfold filterKeyOffense
    rw [if_pos (by simp [h])]
  · intro k op h
    unfold filterKeyOffense at h
    split_ifs at h with h1 h2 h3
    all_goals simp_all

/-- Claim C6, witness: a key without ".$" (a plain field name) passes the
filter-key scan. -/
theorem filter_operator_allowlist_witness :
    filterKeyOffense "age" = none :=
  filter_operator_allowlist.2.2.2.1 "age" (by rfl)

end MongoProvider
